import Mathlib

/-!
Shallow embedding of the ts-rest express adapter
(libs/ts-rest/express/src/lib/ts-rest-express.ts).

The adapter imports a few helpers from the @ts-rest/core package and from its
local types module; those files belong to this repository but are not among
the given sources, so their definitions below are modelled from the
specification and carry a doc comment starting with the words
"Modelled from the spec". Everything else is translated from the source file.

Conventions of the embedding:
- JS objects with string keys become association lists.
- The recursive schema tree (AppRoute | AppRouter) and the implementation
  tree are tagged variants, as the duck-typed checks of the source
  (isAppRoute, typeof router.handler) distinguish exactly these cases.
- Asynchronous functions become pure functions returning Except, since the
  engine awaits every asynchronous step before continuing (single request
  chain, no intra-request concurrency).
- The side effects of registration (app.get and friends) are collected in a
  returned list, in the order the source performs them; a thrown Error
  becomes a some value in the second component of the result.
-/

namespace TsRestExpress

/-- JSON-like scalar values as they occur in params, headers, query and body
records of a request. -/
inductive JVal where
  | str (s : String)
  | num (n : Int)
  | bool (b : Bool)
  | null
deriving DecidableEq

/-- Field types that a shape descriptor can declare. -/
inductive JType where
  | str
  | num
  | bool
deriving DecidableEq

/-- A record value: a JS object with string keys. -/
abbrev JRecord := List (String × JVal)

/-- Modelled from the spec: a shape descriptor of the external
schema-validation library (a zod object schema in the source). The spec
describes a shape as a declarative description of expected structure, so the
model declares a list of fields with their expected scalar types. -/
structure Shape where
  fields : List (String × JType)
deriving DecidableEq

/-- Modelled from the spec: the validator-specific structured error detail of
a failed validation. The model records the names of declared fields that are
missing or mistyped, followed by the unknown keys rejected in strict mode. -/
structure ZodError where
  issues : List String
deriving DecidableEq

/-- The third argument of checkZodSchema in the source. -/
structure ZodOptions where
  passThroughExtraKeys : Bool
deriving DecidableEq

/-- First-match lookup of a key in an association list, as JS property access
on an object with unique keys. -/
def lookupKey {α : Type} (k : String) : List (String × α) → Option α
  | [] => none
  | (k2, v) :: rest => if k2 = k then some v else lookupKey k rest

def typechecks : JVal → JType → Bool
  | .str _, .str => true
  | .num _, .num => true
  | .bool _, .bool => true
  | _, _ => false

/-- Declared fields of a shape that are missing from the value or hold a
value of the wrong type. -/
def checkFields (value : JRecord) (fields : List (String × JType)) : List String :=
  fields.filterMap (fun f =>
    match lookupKey f.1 value with
    | some v => if typechecks v f.2 then none else some f.1
    | none => some f.1)

/-- Keys of the value that the shape does not declare. -/
def extraKeys (value : JRecord) (fields : List (String × JType)) : List String :=
  (value.map Prod.fst).filter (fun k => (lookupKey k fields).isNone)

/-- Modelled from the spec: checkZodSchema from @ts-rest/core. The spec says
the validator adapter returns success with the parsed value or failure with
error detail; a null or absent shape accepts the value without structural
checks; tolerant mode (passThroughExtraKeys) accepts unknown extra keys and
keeps them in the parsed value, strict mode rejects unknown extra keys. -/
def checkZodSchema (value : JRecord) (schema : Option Shape) (opts : ZodOptions) :
    Except ZodError JRecord :=
  match schema with
  | none => .ok value
  | some sh =>
    let missing := checkFields value sh.fields
    let extra := if opts.passThroughExtraKeys then [] else extraKeys value sh.fields
    if missing.isEmpty && extra.isEmpty then .ok value else .error ⟨missing ++ extra⟩

/-- Modelled from the spec: the per-value JSON decoding used by
parseJsonQueryObject from @ts-rest/core. Each query string value is parsed as
JSON-encoded, falling back to the raw string on parse failure. The model
covers the JSON scalars true, false, null and integers; every other input
falls back to the raw string, which is all the claims exercise. -/
def parseJsonQueryValue (s : String) : JVal :=
  if s = "true" then .bool true
  else if s = "false" then .bool false
  else if s = "null" then .null
  else
    match s.toInt? with
    | some n => .num n
    | none => .str s

/-- Modelled from the spec: parseJsonQueryObject from @ts-rest/core maps the
JSON decoding over every value of the raw query record. -/
def parseJsonQueryObject (q : List (String × String)) : JRecord :=
  q.map (fun p => (p.1, parseJsonQueryValue p.2))

/-- The raw query record as the validator sees it when the jsonQuery option
is disabled: every query string value stays a string. -/
def rawQueryRecord (q : List (String × String)) : JRecord :=
  q.map (fun p => (p.1, JVal.str p.2))

/-- A leaf route of the contract: method, path and the declared shapes.
The body field is none when the schema declares no body (the source reads
this as a null schema), and responses maps a numeric status code to the
declared response body shape. -/
structure AppRoute where
  method : String
  path : String
  pathParams : Option Shape
  headers : Option Shape
  query : Option Shape
  body : Option Shape
  responses : List (Nat × Shape)
deriving DecidableEq

/-- Lookup of a response shape by numeric status code, as the indexing
schema.responses of the source. -/
def lookupStatus (n : Nat) : List (Nat × Shape) → Option Shape
  | [] => none
  | (k, v) :: rest => if k = n then some v else lookupStatus n rest

mutual
/-- The schema tree: an AppRoute leaf or an AppRouter object mapping string
keys to nested trees. -/
inductive AppRouterTree where
  | route (r : AppRoute)
  | router (children : RouterChildren)

/-- The enumerable entries of an AppRouter object, in enumeration order. -/
inductive RouterChildren where
  | nil
  | cons (key : String) (child : AppRouterTree) (rest : RouterChildren)
end

mutual
/-- The implementation tree: a bare handler function, an options object with
a handler and optional middleware, or a container object of nested
implementations. H is the type of handler functions, M of middleware. -/
inductive ImplTree (H M : Type) where
  | handler (h : H)
  | options (h : H) (middleware : Option (List M))
  | node (children : ImplChildren H M)

/-- The enumerable entries of an implementation container object, in
enumeration order. -/
inductive ImplChildren (H M : Type) where
  | nil
  | cons (key : String) (child : ImplTree H M) (rest : ImplChildren H M)
end

/-- Property lookup on a schema router object. -/
def lookupRouterKey (k : String) : RouterChildren → Option AppRouterTree
  | .nil => none
  | .cons k2 c rest => if k2 = k then some c else lookupRouterKey k rest

/-- Property lookup on an implementation container object. -/
def lookupImplKey {H M : Type} (k : String) : ImplChildren H M → Option (ImplTree H M)
  | .nil => none
  | .cons k2 c rest => if k2 = k then some c else lookupImplKey k rest

/-- Concatenation of implementation container entries. -/
def ImplChildren.append {H M : Type} : ImplChildren H M → ImplChildren H M → ImplChildren H M
  | .nil, ys => ys
  | .cons k c rest, ys => .cons k c (rest.append ys)

/-- The leaf alternatives the walker hands to processRoute: a bare handler
function or an options object. This mirrors AppRouteImplementationOrOptions
restricted to leaves. -/
inductive AppRouteImplementationOrOptions (H M : Type) where
  | impl (h : H)
  | options (h : H) (middleware : Option (List M))
deriving DecidableEq

/-- Modelled from the spec: isAppRouteImplementation from the local types
module, which tells a bare callable implementation from an options object. -/
def isAppRouteImplementation {H M : Type} : AppRouteImplementationOrOptions H M → Bool
  | .impl _ => true
  | .options _ _ => false

/-- The errors route registration can throw. The first two are the
structural mismatch errors thrown by recursivelyApplyExpressRouter; typeError
models the JS TypeError that isAppRoute raises when the schema tree has no
entry under a key of the implementation tree. -/
inductive RegError where
  | expectedAppRouter
  | expectedAppRoute
  | typeError
deriving DecidableEq

def isStructuralMismatch : RegError → Bool
  | .expectedAppRouter => true
  | .expectedAppRoute => true
  | .typeError => false

/-- An implementation tree node the walker treats as a leaf: a bare handler
function or an options object whose handler is a function. -/
def isLeafImpl {H M : Type} : ImplTree H M → Bool
  | .handler _ => true
  | .options _ _ => true
  | .node _ => false

mutual
/-- The tree walker of the source. It descends the implementation tree; a
container object recurses per enumerable key with the schema child under the
same key, a leaf first checks that the schema node is an AppRoute and then
calls processRoute. Registration side effects are collected in the returned
list; a thrown error ends the walk and appears as the some component. -/
def recursivelyApplyExpressRouter {H M R : Type}
    (processRoute : AppRouteImplementationOrOptions H M → AppRoute → List R) :
    AppRouterTree → ImplTree H M → List R × Option RegError
  | schema, .handler h =>
    match schema with
    | .route r => (processRoute (.impl h) r, none)
    | .router _ => ([], some .expectedAppRoute)
  | schema, .options h mws =>
    match schema with
    | .route r => (processRoute (.options h mws) r, none)
    | .router _ => ([], some .expectedAppRoute)
  | schema, .node children => applyRouterChildren processRoute schema children

/-- The for-in loop of the container branch of the walker. Each iteration
first throws if the schema node is an AppRoute, then recurses into the
schema child under the key; the loop stops at the first thrown error,
keeping the registrations of earlier iterations. -/
def applyRouterChildren {H M R : Type}
    (processRoute : AppRouteImplementationOrOptions H M → AppRoute → List R) :
    AppRouterTree → ImplChildren H M → List R × Option RegError
  | _, .nil => ([], none)
  | schema, .cons k child rest =>
    match schema with
    | .route _ => ([], some .expectedAppRouter)
    | .router cs =>
      match lookupRouterKey k cs with
      | none =>
        -- the schema object has no entry under this key: the recursive call
        -- receives undefined, on which isAppRoute throws a TypeError, except
        -- when the implementation child is an empty container, whose loop
        -- body never runs
        match child with
        | .node .nil => applyRouterChildren processRoute schema rest
        | _ => ([], some .typeError)
      | some schemaChild =>
        match recursivelyApplyExpressRouter processRoute schemaChild child with
        | (regs, some e) => (regs, some e)
        | (regs, none) =>
          let r2 := applyRouterChildren processRoute schema rest
          (regs ++ r2.1, r2.2)
end

/-- The recognized options of createExpressEndpoints. M is the middleware
type. logInitialization only controls a console log line and has no further
effect in the model. -/
structure TsRestExpressOptions (M : Type) where
  logInitialization : Bool
  jsonQuery : Bool
  responseValidation : Bool
  globalMiddleware : Option (List M)

/-- One element of a registered handler chain: the context middleware, a
middleware from the options, or the main request handler built around the
given implementation handler. -/
inductive ChainElem (H M : Type) where
  | ctx
  | mw (m : M)
  | main (h : H)
deriving DecidableEq

/-- One registration performed on the external express router: the
method-specific call, the path passed verbatim, and the handler chain. -/
structure Registration (H M : Type) where
  method : String
  path : String
  chain : List (ChainElem H M)
deriving DecidableEq

/-- The five verbs the registration switch of the source handles. -/
def supportedMethod (m : String) : Bool :=
  m = "GET" || m = "DELETE" || m = "POST" || m = "PUT" || m = "PATCH"

/-- The registration part of initializeExpressRoute of the source: build the
handler chain by pushing the context middleware, the global middleware when
the options carry some, the per-route middleware when the implementation is
an options object carrying some, and finally the main request handler; then
register the chain under the declared method and path. The switch of the
source has no default case, so a method outside the five verbs performs no
registration at all. -/
def registerExpressRoute {H M : Type} (implementationOrOptions : AppRouteImplementationOrOptions H M)
    (schema : AppRoute) (options : TsRestExpressOptions M) : List (Registration H M) :=
  let handler :=
    match implementationOrOptions with
    | .impl h => h
    | .options h _ => h
  let handlers : List (ChainElem H M) :=
    (([ChainElem.ctx]
      ++ (match options.globalMiddleware with
          | some g => g.map ChainElem.mw
          | none => []))
      ++ (match implementationOrOptions with
          | .options _ (some mws) => mws.map ChainElem.mw
          | _ => []))
      ++ [ChainElem.main handler]
  if supportedMethod schema.method then
    [⟨schema.method, schema.path, handlers⟩]
  else
    []

/-- A request of the host server as the engine sees it: extracted path
parameters, the raw header map, the raw query string key-value map, and the
parsed body. -/
structure Request where
  params : JRecord
  headers : JRecord
  query : List (String × String)
  body : JRecord

/-- The user-supplied per-request context function declared on a router: it
receives the request and the matched route; a thrown error or rejected
result is the error case. -/
def ContextFunction (C E : Type) := Request → AppRoute → Except E C

/-- The top-level implementation object of createExpressEndpoints: the
implementation tree together with the context function stored under the
reserved non-enumerable RouterOptions key (absent when initServer.router was
used without a context). -/
structure CompleteRouterObj (H M C E : Type) where
  tree : ImplTree H M
  contextFunction : Option (ContextFunction C E)

/-- createExpressEndpoints of the source: walk the schema and implementation
trees, registering each leaf through initializeExpressRoute. The result is
the list of registrations performed on the express router, in order, and the
error that ended the walk, when one was thrown. -/
def createExpressEndpoints {H M C E : Type} (schema : AppRouterTree)
    (router : CompleteRouterObj H M C E) (options : TsRestExpressOptions M) :
    List (Registration H M) × Option RegError :=
  recursivelyApplyExpressRouter
    (fun implementation innerSchema => registerExpressRoute implementation innerSchema options)
    schema router.tree

/-- The outcome of validateRequest of the source: either a response already
sent with res.status(st).send(error), or the four validation results. On
success each data component is the parsed value the validator returned. -/
inductive ValidationOutcome where
  | failure (status : Nat) (error : ZodError)
  | success (paramsData headersData queryData bodyData : JRecord)
deriving DecidableEq

/-- validateRequest of the source: path params in tolerant mode, then
headers in tolerant mode, then the query (JSON-decoded per value when the
jsonQuery option is enabled) in strict mode, then the body in strict mode;
the first failure responds 400 with the raw validator error and no later
step runs. -/
def validateRequest {M : Type} (req : Request) (schema : AppRoute)
    (options : TsRestExpressOptions M) : ValidationOutcome :=
  match checkZodSchema req.params schema.pathParams ⟨true⟩ with
  | .error e => .failure 400 e
  | .ok paramsData =>
    match checkZodSchema req.headers schema.headers ⟨true⟩ with
    | .error e => .failure 400 e
    | .ok headersData =>
      let query := if options.jsonQuery then parseJsonQueryObject req.query else rawQueryRecord req.query
      match checkZodSchema query schema.query ⟨false⟩ with
      | .error e => .failure 400 e
      | .ok queryData =>
        match checkZodSchema req.body schema.body ⟨false⟩ with
        | .error e => .failure 400 e
        | .ok bodyData => .success paramsData headersData queryData bodyData

/-- The argument object the main request handler passes to the route
implementation: the parsed params, body, query and headers, and the raw
request. The file attachments and the raw response of the source are host
escape hatches with no engine semantics and are left out of the model. -/
structure HandlerArgs where
  params : JRecord
  body : JRecord
  query : JRecord
  headers : JRecord
  req : Request

/-- The result object a route implementation resolves with: the status field
(a JS value the source coerces with Number) and the body. -/
structure HandlerResult where
  status : JVal
  body : JRecord

/-- A route implementation: resolves with a result or rejects with an error
of type E. -/
def HandlerFn (E : Type) := HandlerArgs → Except E HandlerResult

/-- The JS Number coercion on the values of the model; none models NaN. -/
def jsNumber : JVal → Option Int
  | .num n => some n
  | .bool b => some (if b then 1 else 0)
  | .null => some 0
  | .str s => if s = "" then some 0 else s.toInt?

/-- The indexing schema.responses of the source under the coerced status
code: an exact lookup, with no entry for NaN or negative codes. -/
def lookupResponse (responses : List (Nat × Shape)) : Option Int → Option Shape
  | none => none
  | some n => if n < 0 then none else lookupStatus n.toNat responses

/-- Modelled from the spec: validateResponse from @ts-rest/core. When a
response shape is declared for the status, the body is validated against it
in strict mode before serializing, and a failing body raises an error (which
the caller catches and forwards); when no shape is declared for the actual
status the source implicitly passes the body through, which the spec records
as the observed behavior. -/
def validateResponse (responseType : Option Shape) (body : JRecord) :
    Except ZodError JRecord :=
  match responseType with
  | none => .ok body
  | some sh => checkZodSchema body (some sh) ⟨false⟩

/-- The error values the engine hands to next: the rejection value of the
route implementation unchanged, or the response validation error thrown
inside the try block. -/
inductive EngineError (E : Type) where
  | handlerError (e : E)
  | responseValidationError (e : ZodError)
deriving DecidableEq

/-- What the main request handler does with a request: send the 400
validation failure response, send a JSON response, or forward an error to
the next-with-error path of the host. -/
inductive ReqOutcome (E : Type) where
  | validationFailure (status : Nat) (error : ZodError)
  | jsonResponse (status : Option Int) (body : JRecord)
  | forwardedError (e : EngineError E)
deriving DecidableEq

/-- mainReqHandler of the source: validate the request, return at once on
failure; otherwise await the implementation with the parsed data, coerce the
status, optionally validate the response body against the shape declared for
exactly that status, and serialize as JSON; everything thrown inside the try
block goes to next. -/
def mainReqHandler {M E : Type} (schema : AppRoute) (options : TsRestExpressOptions M)
    (handler : HandlerFn E) (req : Request) : ReqOutcome E :=
  match validateRequest req schema options with
  | .failure st e => .validationFailure st e
  | .success paramsData headersData queryData bodyData =>
    match handler ⟨paramsData, bodyData, queryData, headersData, req⟩ with
    | .error e => .forwardedError (.handlerError e)
    | .ok result =>
      let statusCode := jsNumber result.status
      if options.responseValidation then
        match validateResponse (lookupResponse schema.responses statusCode) result.body with
        | .error e => .forwardedError (.responseValidationError e)
        | .ok vbody => .jsonResponse statusCode vbody
      else
        .jsonResponse statusCode result.body

/-- The tsRest field the context middleware attaches to the request: the
matched route and the context value, none modelling the undefined context
attached when no context function is declared. -/
structure TsRestAttachment (C : Type) where
  route : AppRoute
  context : Option C
deriving DecidableEq

/-- What the context middleware does with a request: attach the tsRest field
and call next, or (when the context function throws or rejects) leave the
fire-and-forget async closure with an unhandled rejection: next is never
called, nothing is sent, and no error is forwarded. -/
inductive CtxOutcome (C E : Type) where
  | calledNext (tsRest : TsRestAttachment C)
  | unhandledRejection (e : E)
deriving DecidableEq

/-- contextMiddleware of the source, together with the number of times it
invoked the context function. The middleware body is an async closure that
is not awaited and has no rejection handler, so a failing context function
neither calls next nor reaches any error path. -/
def contextMiddleware {C E : Type} (contextFunction : Option (ContextFunction C E))
    (route : AppRoute) (req : Request) : CtxOutcome C E × Nat :=
  match contextFunction with
  | none => (.calledNext ⟨route, none⟩, 0)
  | some f =>
    match f req route with
    | .ok c => (.calledNext ⟨route, some c⟩, 1)
    | .error e => (.unhandledRejection e, 1)

/-- The end-to-end fate of one request on a registered route. noResponse is
the stalled request of an unhandled context rejection; handled carries the
attachment the downstream handlers can read and the outcome of the main
request handler. -/
inductive ChainResult (C E : Type) where
  | noResponse (e : E)
  | handled (tsRest : TsRestAttachment C) (outcome : ReqOutcome E)
deriving DecidableEq

/-- Running the registered chain on one request: the context middleware runs
first; only when it calls next does the rest of the chain run, ending in the
main request handler. The middleware between the two (global and per-route)
pass the request through by calling next and are modelled as transparent.
The second component counts the context function invocations. -/
def runRouteRequest {M C E : Type} (contextFunction : Option (ContextFunction C E))
    (schema : AppRoute) (options : TsRestExpressOptions M) (handler : HandlerFn E)
    (req : Request) : ChainResult C E × Nat :=
  match contextMiddleware contextFunction schema req with
  | (.calledNext att, n) => (.handled att (mainReqHandler schema options handler req), n)
  | (.unhandledRejection e, n) => (.noResponse e, n)

/-- Every enumerable key of the schema router has an entry in the
implementation container. -/
def coversSchema {H M : Type} (is : ImplChildren H M) : RouterChildren → Bool
  | .nil => true
  | .cons k _ rest => (lookupImplKey k is).isSome && coversSchema is rest

mutual
/-- The identical-shape relation of the spec between a schema tree and an
implementation tree: leaves face leaves, containers face routers whose keys
correspond one to one with matching subtrees. -/
def matchesShape {H M : Type} : AppRouterTree → ImplTree H M → Bool
  | .route _, .handler _ => true
  | .route _, .options _ _ => true
  | .router cs, .node is => matchesChildren cs is && coversSchema is cs
  | .route _, .node _ => false
  | .router _, .handler _ => false
  | .router _, .options _ _ => false

/-- Every entry of the implementation container finds a schema child of
matching shape under its key. -/
def matchesChildren {H M : Type} : RouterChildren → ImplChildren H M → Bool
  | _, .nil => true
  | cs, .cons k i rest =>
    (match lookupRouterKey k cs with
     | some s => matchesShape s i
     | none => false) && matchesChildren cs rest
end

mutual
/-- Every leaf route of the schema tree declares one of the five supported
verbs. -/
def allSupported : AppRouterTree → Bool
  | .route r => supportedMethod r.method
  | .router cs => allSupportedChildren cs

def allSupportedChildren : RouterChildren → Bool
  | .nil => true
  | .cons _ s rest => allSupported s && allSupportedChildren rest
end

/-- Written after the words of the spec, for comparison with the source
walker: the handler chain of a leaf is
contextMiddleware, then the global middleware, then the per-route
middleware, then the main handler. -/
def specChain {H M : Type} (implementationOrOptions : AppRouteImplementationOrOptions H M)
    (options : TsRestExpressOptions M) : List (ChainElem H M) :=
  ChainElem.ctx ::
    ((match options.globalMiddleware with
      | some g => g.map ChainElem.mw
      | none => [])
     ++ (match implementationOrOptions with
         | .options _ (some mws) => mws.map ChainElem.mw
         | _ => [])
     ++ [ChainElem.main (match implementationOrOptions with
         | .impl h => h
         | .options h _ => h)])

mutual
/-- Written after the words of the spec, for comparison with the source
walker: exactly one registration per leaf, in implementation-tree
enumeration order, each under the declared method and path verbatim. -/
def specRegistrations {H M : Type} (options : TsRestExpressOptions M) :
    AppRouterTree → ImplTree H M → List (Registration H M)
  | .route r, .handler h => [⟨r.method, r.path, specChain (.impl h) options⟩]
  | .route r, .options h mws => [⟨r.method, r.path, specChain (.options h mws) options⟩]
  | .router cs, .node is => specRegChildren options cs is
  | .route _, .node _ => []
  | .router _, .handler _ => []
  | .router _, .options _ _ => []

def specRegChildren {H M : Type} (options : TsRestExpressOptions M) :
    RouterChildren → ImplChildren H M → List (Registration H M)
  | _, .nil => []
  | cs, .cons k i rest =>
    (match lookupRouterKey k cs with
     | some s => specRegistrations options s i
     | none => []) ++ specRegChildren options cs rest
end

mutual
/-- The number of leaves of an implementation tree. -/
def implLeafCount {H M : Type} : ImplTree H M → Nat
  | .handler _ => 1
  | .options _ _ => 1
  | .node is => implLeafCountChildren is

def implLeafCountChildren {H M : Type} : ImplChildren H M → Nat
  | .nil => 0
  | .cons _ i rest => implLeafCount i + implLeafCountChildren rest
end

/-- A sample contract with two leaves, one nested, used as a concrete
registration scenario. -/
def c5Schema : AppRouterTree :=
  .router (.cons "a" (.route ⟨"GET", "/a", none, none, none, none, []⟩)
    (.cons "b" (.router (.cons "c" (.route ⟨"POST", "/c", none, none, none, none, []⟩) .nil)) .nil))

/-- A sample implementation tree of the same shape as the sample contract,
with a bare handler leaf and an options leaf carrying per-route
middleware. -/
def c5Impl : ImplTree Nat Nat :=
  .node (.cons "a" (.handler 1)
    (.cons "b" (.node (.cons "c" (.options 2 (some [9])) .nil)) .nil))

/-- Sample options carrying one global middleware. -/
def c5Options : TsRestExpressOptions Nat := ⟨false, false, false, some [5]⟩

/-! Helper lemmas. -/

theorem allSupportedChildren_lookup :
    ∀ (cs : RouterChildren) (k : String) (s : AppRouterTree),
      allSupportedChildren cs = true → lookupRouterKey k cs = some s →
      allSupported s = true
  | .nil, k, s => by simp [lookupRouterKey]
  | .cons k2 c rest, k, s => by
      intro hall hlk
      simp only [allSupportedChildren, Bool.and_eq_true] at hall
      simp only [lookupRouterKey] at hlk
      by_cases hk : k2 = k
      · simp only [hk, if_pos rfl] at hlk
        cases hlk
        exact hall.1
      · simp only [if_neg hk] at hlk
        exact allSupportedChildren_lookup rest k s hall.2 hlk

mutual
theorem walk_matches {H M : Type} (options : TsRestExpressOptions M) :
    ∀ (s : AppRouterTree) (i : ImplTree H M),
      matchesShape s i = true → allSupported s = true →
      recursivelyApplyExpressRouter
        (fun im r => registerExpressRoute im r options) s i
        = (specRegistrations options s i, none)
  | .route r, .handler h, _, hs => by
      simp only [allSupported] at hs
      simp [recursivelyApplyExpressRouter, specRegistrations, registerExpressRoute, hs,
        specChain, List.append_assoc]
  | .route r, .options h mws, _, hs => by
      simp only [allSupported] at hs
      simp [recursivelyApplyExpressRouter, specRegistrations, registerExpressRoute, hs,
        specChain, List.append_assoc]
  | .router cs, .node is, hm, hs => by
      simp only [matchesShape, Bool.and_eq_true] at hm
      simp only [allSupported] at hs
      simpa [recursivelyApplyExpressRouter, specRegistrations] using
        walkList_matches options cs is hm.1 hs
  | .route _, .node _, hm, _ => by simp [matchesShape] at hm
  | .router _, .handler _, hm, _ => by simp [matchesShape] at hm
  | .router _, .options _ _, hm, _ => by simp [matchesShape] at hm

theorem walkList_matches {H M : Type} (options : TsRestExpressOptions M) :
    ∀ (cs : RouterChildren) (is : ImplChildren H M),
      matchesChildren cs is = true → allSupportedChildren cs = true →
      applyRouterChildren (fun im r => registerExpressRoute im r options) (.router cs) is
        = (specRegChildren options cs is, none)
  | cs, .nil, _, _ => by simp [applyRouterChildren, specRegChildren]
  | cs, .cons k i rest, hm, hs => by
      simp only [matchesChildren, Bool.and_eq_true] at hm
      obtain ⟨h1, h2⟩ := hm
      cases hlk : lookupRouterKey k cs with
      | none => rw [hlk] at h1; simp at h1
      | some sc =>
          rw [hlk] at h1
          have hsc : allSupported sc = true := allSupportedChildren_lookup cs k sc hs hlk
          have hrec := walk_matches options sc i h1 hsc
          have hrest := walkList_matches options cs rest h2 hs
          simp [applyRouterChildren, specRegChildren, hlk, hrec, hrest]
end

mutual
theorem specRegs_length {H M : Type} (options : TsRestExpressOptions M) :
    ∀ (s : AppRouterTree) (i : ImplTree H M), matchesShape s i = true →
      (specRegistrations options s i).length = implLeafCount i
  | .route r, .handler h, _ => by simp [specRegistrations, implLeafCount]
  | .route r, .options h mws, _ => by simp [specRegistrations, implLeafCount]
  | .router cs, .node is, hm => by
      simp only [matchesShape, Bool.and_eq_true] at hm
      simpa [specRegistrations, implLeafCount] using
        specRegChildren_length options cs is hm.1
  | .route _, .node _, hm => by simp [matchesShape] at hm
  | .router _, .handler _, hm => by simp [matchesShape] at hm
  | .router _, .options _ _, hm => by simp [matchesShape] at hm

theorem specRegChildren_length {H M : Type} (options : TsRestExpressOptions M) :
    ∀ (cs : RouterChildren) (is : ImplChildren H M), matchesChildren cs is = true →
      (specRegChildren options cs is).length = implLeafCountChildren is
  | cs, .nil, _ => by simp [specRegChildren, implLeafCountChildren]
  | cs, .cons k i rest, hm => by
      simp only [matchesChildren, Bool.and_eq_true] at hm
      obtain ⟨h1, h2⟩ := hm
      cases hlk : lookupRouterKey k cs with
      | none => rw [hlk] at h1; simp at h1
      | some sc =>
          rw [hlk] at h1
          have hrec := specRegs_length options sc i h1
          have hrest := specRegChildren_length options cs rest h2
          simp [specRegChildren, implLeafCountChildren, hlk, hrec, hrest]
end

theorem applyRouterChildren_append_ok {H M R : Type}
    (processRoute : AppRouteImplementationOrOptions H M → AppRoute → List R)
    (s : AppRouterTree) :
    ∀ (xs ys : ImplChildren H M) (regs : List R),
      applyRouterChildren processRoute s xs = (regs, none) →
      applyRouterChildren processRoute s (xs.append ys)
        = (regs ++ (applyRouterChildren processRoute s ys).1,
           (applyRouterChildren processRoute s ys).2)
  | .nil, ys, regs => by
      intro h
      simp only [applyRouterChildren, Prod.mk.injEq] at h
      obtain ⟨h1, -⟩ := h
      subst h1
      simp [ImplChildren.append]
  | .cons k child rest, ys, regs => by
      intro h
      cases s with
      | route r => simp [applyRouterChildren] at h
      | router cs =>
        simp only [ImplChildren.append]
        cases hlk : lookupRouterKey k cs with
        | none =>
          cases child with
          | handler h2 => simp [applyRouterChildren, hlk] at h
          | options h2 m2 => simp [applyRouterChildren, hlk] at h
          | node is =>
            cases is with
            | cons k3 c3 r3 => simp [applyRouterChildren, hlk] at h
            | nil =>
              simp only [applyRouterChildren, hlk] at h
              have ih := applyRouterChildren_append_ok processRoute (.router cs) rest ys regs h
              simp only [applyRouterChildren, hlk]
              exact ih
        | some sc =>
          simp only [applyRouterChildren, hlk] at h
          rcases hw : recursivelyApplyExpressRouter processRoute sc child with ⟨regs1, e1⟩
          rw [hw] at h
          cases e1 with
          | some e => simp at h
          | none =>
            simp only at h
            rcases hr : applyRouterChildren processRoute (.router cs) rest with ⟨regs2, e2⟩
            rw [hr] at h
            simp only [Prod.mk.injEq] at h
            obtain ⟨hreg, he2⟩ := h
            subst hreg
            subst he2
            have ih := applyRouterChildren_append_ok processRoute (.router cs) rest ys regs2 hr
            simp only [applyRouterChildren, hlk, hw, ih, List.append_assoc]

theorem lookupKey_parseJsonQueryObject (k : String) (q : List (String × String)) :
    lookupKey k (parseJsonQueryObject q) = (lookupKey k q).map parseJsonQueryValue := by
  induction q with
  | nil => simp [parseJsonQueryObject, lookupKey]
  | cons p rest ih =>
    simp only [parseJsonQueryObject, List.map_cons, lookupKey]
    by_cases hk : p.1 = k
    · simp [hk]
    · simpa [hk] using ih

/-! Claim theorems. -/

/-- Claim C1 (amended): when the walker reaches a key at which the
implementation tree holds a non-empty container object while the schema
holds a leaf Route, or the implementation holds a leaf while the schema
holds a Router, registration throws the respective StructuralMismatch error;
nothing is registered for the offending branch or for any key after it in
enumeration order, but the handler chains registered for leaves visited
before the mismatch stay registered — the error does not precede every
registration side effect. -/
theorem C1_partial_registration {H M C E : Type} (options : TsRestExpressOptions M)
    (cs : RouterChildren) (pre post : ImplChildren H M) (k : String)
    (bad : ImplTree H M) (regs : List (Registration H M))
    (cf : Option (ContextFunction C E))
    (hpre : applyRouterChildren
        (fun implementation innerSchema => registerExpressRoute implementation innerSchema options)
        (.router cs) pre = (regs, none)) :
    (∀ (r : AppRoute) (k2 : String) (c : ImplTree H M) (rest2 : ImplChildren H M),
       lookupRouterKey k cs = some (.route r) → bad = .node (.cons k2 c rest2) →
       createExpressEndpoints (.router cs) ⟨.node (pre.append (.cons k bad post)), cf⟩ options
         = (regs, some .expectedAppRouter)) ∧
    (∀ (rcs : RouterChildren),
       lookupRouterKey k cs = some (.router rcs) → isLeafImpl bad = true →
       createExpressEndpoints (.router cs) ⟨.node (pre.append (.cons k bad post)), cf⟩ options
         = (regs, some .expectedAppRoute)) := by
  have happ := applyRouterChildren_append_ok
    (fun implementation innerSchema => registerExpressRoute implementation innerSchema options)
    (.router cs) pre (.cons k bad post) regs hpre
  constructor
  · intro r k2 c rest2 hlk hbad
    subst hbad
    have htail : applyRouterChildren
        (fun implementation innerSchema => registerExpressRoute implementation innerSchema options)
        (.router cs) (.cons k (.node (.cons k2 c rest2)) post)
        = ([], some RegError.expectedAppRouter) := by
      simp [applyRouterChildren, hlk, recursivelyApplyExpressRouter]
    simp [createExpressEndpoints, recursivelyApplyExpressRouter, happ, htail]
  · intro rcs hlk hleaf
    cases bad with
    | node _ => simp [isLeafImpl] at hleaf
    | handler h =>
      have htail : applyRouterChildren
          (fun implementation innerSchema => registerExpressRoute implementation innerSchema options)
          (.router cs) (.cons k (.handler h) post)
          = ([], some RegError.expectedAppRoute) := by
        simp [applyRouterChildren, hlk, recursivelyApplyExpressRouter]
      simp [createExpressEndpoints, recursivelyApplyExpressRouter, happ, htail]
    | options h mws =>
      have htail : applyRouterChildren
          (fun implementation innerSchema => registerExpressRoute implementation innerSchema options)
          (.router cs) (.cons k (.options h mws) post)
          = ([], some RegError.expectedAppRoute) := by
        simp [applyRouterChildren, hlk, recursivelyApplyExpressRouter]
      simp [createExpressEndpoints, recursivelyApplyExpressRouter, happ, htail]

/-- Witness for claim C1: a two-route contract whose second key is
mismatched; the walk throws the structural mismatch error, yet the first
route is already registered and its registration survives. -/
theorem C1_partial_registration_witness :
    createExpressEndpoints
        (.router (.cons "one" (.route ⟨"GET", "/one", none, none, none, none, []⟩)
          (.cons "two" (.route ⟨"PUT", "/two", none, none, none, none, []⟩) .nil)))
        (⟨.node ((ImplChildren.cons "one" (.handler 7) .nil).append
          (.cons "two" (.node (.cons "x" (.handler 8) .nil)) .nil)), none⟩
          : CompleteRouterObj Nat Nat Nat Nat)
        ⟨false, false, false, none⟩
      = ([⟨"GET", "/one", [ChainElem.ctx, ChainElem.main 7]⟩], some RegError.expectedAppRouter) :=
  (C1_partial_registration ⟨false, false, false, none⟩
    (.cons "one" (.route ⟨"GET", "/one", none, none, none, none, []⟩)
      (.cons "two" (.route ⟨"PUT", "/two", none, none, none, none, []⟩) .nil))
    (.cons "one" (.handler 7) .nil) .nil "two"
    (.node (.cons "x" (.handler 8) .nil))
    [⟨"GET", "/one", [ChainElem.ctx, ChainElem.main 7]⟩] none rfl).1
    ⟨"PUT", "/two", none, none, none, none, []⟩ "x" (.handler 8) .nil rfl rfl

/-- Counterexample for claim C1 as stated: on a concrete mismatched pair the
walk does fail with a StructuralMismatch error, but one handler chain has
already been registered, contradicting the claim that no handler chain is
registered for any route of the whole tree. -/
theorem C1_counterexample :
    ((createExpressEndpoints
        (.router (.cons "a" (.route ⟨"GET", "/a", none, none, none, none, []⟩)
          (.cons "b" (.route ⟨"POST", "/b", none, none, none, none, []⟩) .nil)))
        (⟨.node (.cons "a" (.handler 1)
          (.cons "b" (.node (.cons "x" (.handler 2) .nil)) .nil)), none⟩
          : CompleteRouterObj Nat Nat Nat Nat)
        ⟨false, false, false, none⟩).1.length = 1)
    ∧ ((createExpressEndpoints
        (.router (.cons "a" (.route ⟨"GET", "/a", none, none, none, none, []⟩)
          (.cons "b" (.route ⟨"POST", "/b", none, none, none, none, []⟩) .nil)))
        (⟨.node (.cons "a" (.handler 1)
          (.cons "b" (.node (.cons "x" (.handler 2) .nil)) .nil)), none⟩
          : CompleteRouterObj Nat Nat Nat Nat)
        ⟨false, false, false, none⟩).2 = some RegError.expectedAppRouter) :=
  ⟨rfl, rfl⟩

/-- Claim C2 (confirmed): the request pipeline validates path parameters,
then headers, then query, then body, in that fixed order; the first failing
step makes the main request handler respond at once with status 400 and the
raw validator error as the body, regardless of the route implementation
(which is therefore never invoked) and regardless of the outcomes of the
later validation steps (which are therefore never evaluated). -/
theorem C2_validation_order {M E : Type} (options : TsRestExpressOptions M) (schema : AppRoute)
    (req : Request) (handler : HandlerFn E) :
    (∀ e, checkZodSchema req.params schema.pathParams ⟨true⟩ = .error e →
      mainReqHandler schema options handler req = .validationFailure 400 e) ∧
    (∀ p e, checkZodSchema req.params schema.pathParams ⟨true⟩ = .ok p →
      checkZodSchema req.headers schema.headers ⟨true⟩ = .error e →
      mainReqHandler schema options handler req = .validationFailure 400 e) ∧
    (∀ p h e, checkZodSchema req.params schema.pathParams ⟨true⟩ = .ok p →
      checkZodSchema req.headers schema.headers ⟨true⟩ = .ok h →
      checkZodSchema (if options.jsonQuery then parseJsonQueryObject req.query else rawQueryRecord req.query)
        schema.query ⟨false⟩ = .error e →
      mainReqHandler schema options handler req = .validationFailure 400 e) ∧
    (∀ p h q e, checkZodSchema req.params schema.pathParams ⟨true⟩ = .ok p →
      checkZodSchema req.headers schema.headers ⟨true⟩ = .ok h →
      checkZodSchema (if options.jsonQuery then parseJsonQueryObject req.query else rawQueryRecord req.query)
        schema.query ⟨false⟩ = .ok q →
      checkZodSchema req.body schema.body ⟨false⟩ = .error e →
      mainReqHandler schema options handler req = .validationFailure 400 e) := by
  refine ⟨?_, ?_, ?_, ?_⟩
  · intro e h1
    simp [mainReqHandler, validateRequest, h1]
  · intro p e h1 h2
    simp [mainReqHandler, validateRequest, h1, h2]
  · intro p h e h1 h2 h3
    simp [mainReqHandler, validateRequest, h1, h2, h3]
  · intro p h q e h1 h2 h3 h4
    simp [mainReqHandler, validateRequest, h1, h2, h3, h4]

/-- Witness for claim C2: the example of the spec, a route whose body shape
declares a name string and a request with an empty body; the pipeline
answers 400 with the validator error naming the missing field, and the
implementation (which would answer 200) is never reached. -/
theorem C2_validation_order_witness :
    mainReqHandler ⟨"POST", "/p", none, none, none, some ⟨[("name", JType.str)]⟩, []⟩
      (⟨true, false, false, none⟩ : TsRestExpressOptions Nat)
      ((fun _ => .ok ⟨JVal.num 200, []⟩) : HandlerFn Nat)
      ⟨[], [], [], []⟩
      = .validationFailure 400 ⟨["name"]⟩ :=
  (C2_validation_order ⟨true, false, false, none⟩
    ⟨"POST", "/p", none, none, none, some ⟨[("name", JType.str)]⟩, []⟩
    ⟨[], [], [], []⟩ (fun _ => .ok ⟨JVal.num 200, []⟩)).2.2.2 [] [] [] ⟨["name"]⟩ rfl rfl rfl rfl

/-- Claim C3 (confirmed): the context middleware is the first element of
every registered handler chain; it attaches the matched route together with
the once-invoked, awaited context value (or the defined no-context value
when no context function is declared) to the request before calling next,
and this attachment happens even when validation later fails. -/
theorem C3_context_attachment (H : Type) {M C E : Type} (options : TsRestExpressOptions M)
    (schema : AppRoute) (handler : HandlerFn E) (req : Request)
    (cf : Option (ContextFunction C E)) :
    (∀ (implementationOrOptions : AppRouteImplementationOrOptions H M) (r : AppRoute)
       (reg : Registration H M), reg ∈ registerExpressRoute implementationOrOptions r options →
       reg.chain.head? = some ChainElem.ctx) ∧
    (cf = none → runRouteRequest cf schema options handler req
       = (.handled ⟨schema, none⟩ (mainReqHandler schema options handler req), 0)) ∧
    (∀ f c, cf = some f → f req schema = .ok c →
       runRouteRequest cf schema options handler req
         = (.handled ⟨schema, some c⟩ (mainReqHandler schema options handler req), 1)) ∧
    (∀ f c e, cf = some f → f req schema = .ok c →
       validateRequest req schema options = .failure 400 e →
       runRouteRequest cf schema options handler req
         = (.handled ⟨schema, some c⟩ (.validationFailure 400 e), 1)) := by
  refine ⟨?_, ?_, ?_, ?_⟩
  · intro implementationOrOptions r reg hmem
    simp only [registerExpressRoute] at hmem
    split at hmem
    · simp only [List.mem_singleton] at hmem
      subst hmem
      rfl
    · simp at hmem
  · intro hcf
    subst hcf
    simp [runRouteRequest, contextMiddleware]
  · intro f c hcf hf
    subst hcf
    simp [runRouteRequest, contextMiddleware, hf]
  · intro f c e hcf hf hval
    subst hcf
    simp [runRouteRequest, contextMiddleware, hf, mainReqHandler, hval]

/-- Witness for claim C3: on a concrete route, a declared context function
resolving to 5 is invoked exactly once and its value is attached next to the
route; with no context function declared the attachment still exists, with
the no-context value and zero invocations. -/
theorem C3_context_attachment_witness :
    runRouteRequest ((some (fun _ _ => .ok 5)) : Option (ContextFunction Nat Nat))
      ⟨"GET", "/c", none, none, none, none, []⟩
      (⟨true, false, false, none⟩ : TsRestExpressOptions Nat)
      ((fun _ => .ok ⟨JVal.num 200, []⟩) : HandlerFn Nat)
      ⟨[], [], [], []⟩
      = (.handled ⟨⟨"GET", "/c", none, none, none, none, []⟩, some 5⟩ (.jsonResponse (some 200) []), 1) ∧
    runRouteRequest (none : Option (ContextFunction Nat Nat))
      ⟨"GET", "/c", none, none, none, none, []⟩
      (⟨true, false, false, none⟩ : TsRestExpressOptions Nat)
      ((fun _ => .ok ⟨JVal.num 200, []⟩) : HandlerFn Nat)
      ⟨[], [], [], []⟩
      = (.handled ⟨⟨"GET", "/c", none, none, none, none, []⟩, none⟩ (.jsonResponse (some 200) []), 0) :=
  ⟨(C3_context_attachment Nat ⟨true, false, false, none⟩ ⟨"GET", "/c", none, none, none, none, []⟩
      (fun _ => .ok ⟨JVal.num 200, []⟩) ⟨[], [], [], []⟩ (some (fun _ _ => .ok 5))).2.2.1
      (fun _ _ => .ok 5) 5 rfl rfl,
   (C3_context_attachment Nat ⟨true, false, false, none⟩ ⟨"GET", "/c", none, none, none, none, []⟩
      (fun _ => .ok ⟨JVal.num 200, []⟩) ⟨[], [], [], []⟩ none).2.1 rfl⟩

/-- Claim C4 (confirmed): when the implementation returns normally, the sent
status is the numeric coercion of its status field and the body is
serialized as JSON; with responseValidation enabled the body is first
validated against the shape declared for exactly that status code, a failing
body is forwarded as an error instead of being returned verbatim, and a
passing body is serialized from the validator result; with
responseValidation disabled the body is serialized as returned. -/
theorem C4_response_shaping {M E : Type} (options : TsRestExpressOptions M) (schema : AppRoute)
    (req : Request) (handler : HandlerFn E) (p h q b : JRecord) (result : HandlerResult)
    (hv : validateRequest req schema options = .success p h q b)
    (hh : handler ⟨p, b, q, h, req⟩ = .ok result) :
    (options.responseValidation = false →
      mainReqHandler schema options handler req
        = .jsonResponse (jsNumber result.status) result.body) ∧
    (options.responseValidation = true →
      (∀ e, validateResponse (lookupResponse schema.responses (jsNumber result.status)) result.body = .error e →
        mainReqHandler schema options handler req
          = .forwardedError (.responseValidationError e)) ∧
      (∀ d, validateResponse (lookupResponse schema.responses (jsNumber result.status)) result.body = .ok d →
        mainReqHandler schema options handler req = .jsonResponse (jsNumber result.status) d)) := by
  refine ⟨?_, fun hrv => ⟨?_, ?_⟩⟩
  · intro hrv
    simp [mainReqHandler, hv, hh, hrv]
  · intro e he
    simp [mainReqHandler, hv, hh, hrv, he]
  · intro d hd
    simp [mainReqHandler, hv, hh, hrv, hd]

/-- Witness for claim C4: the example of the spec, with responseValidation
enabled, an implementation returning status 201 and a body with only an
extra field, and a declared 201 shape requiring a name string; the response
fails validation and is forwarded as an error, not returned verbatim. -/
theorem C4_response_shaping_witness :
    mainReqHandler ⟨"POST", "/p", none, none, none, none, [(201, ⟨[("name", JType.str)]⟩)]⟩
      (⟨true, false, true, none⟩ : TsRestExpressOptions Nat)
      ((fun _ => .ok ⟨JVal.num 201, [("extra", JVal.num 1)]⟩) : HandlerFn Nat)
      ⟨[], [], [], []⟩
      = .forwardedError (.responseValidationError ⟨["name", "extra"]⟩) :=
  ((C4_response_shaping ⟨true, false, true, none⟩
      ⟨"POST", "/p", none, none, none, none, [(201, ⟨[("name", JType.str)]⟩)]⟩
      ⟨[], [], [], []⟩ (fun _ => .ok ⟨JVal.num 201, [("extra", JVal.num 1)]⟩)
      [] [] [] [] ⟨JVal.num 201, [("extra", JVal.num 1)]⟩ rfl rfl).2 rfl).1
    ⟨["name", "extra"]⟩ rfl

/-- Claim C5 (confirmed): for a schema tree and an implementation tree of
identical shape whose leaf methods are all supported, registration succeeds
without error and performs exactly one registration per leaf, in
implementation-tree enumeration order, each carrying the chain of context
middleware, then global middleware, then per-route middleware, then the
main handler, under the declared method and the declared path verbatim, as
the spec-side specRegistrations describes. -/
theorem C5_registration_shape {H M C E : Type} (options : TsRestExpressOptions M)
    (schema : AppRouterTree) (router : CompleteRouterObj H M C E)
    (hm : matchesShape schema router.tree = true)
    (hs : allSupported schema = true) :
    createExpressEndpoints schema router options
      = (specRegistrations options schema router.tree, none) ∧
    (specRegistrations options schema router.tree).length = implLeafCount router.tree :=
  ⟨walk_matches options schema router.tree hm hs,
   specRegs_length options schema router.tree hm⟩

/-- Witness for claim C5: a concrete two-leaf contract with one global and
one per-route middleware registers exactly the two expected chains in
enumeration order. -/
theorem C5_registration_shape_witness :
    matchesShape c5Schema c5Impl = true ∧ allSupported c5Schema = true ∧
    (createExpressEndpoints c5Schema (⟨c5Impl, none⟩ : CompleteRouterObj Nat Nat Nat Nat) c5Options
      = ([⟨"GET", "/a", [ChainElem.ctx, ChainElem.mw 5, ChainElem.main 1]⟩,
          ⟨"POST", "/c", [ChainElem.ctx, ChainElem.mw 5, ChainElem.mw 9, ChainElem.main 2]⟩], none) ∧
     (specRegistrations c5Options c5Schema c5Impl).length = 2) :=
  ⟨rfl, rfl, C5_registration_shape c5Options c5Schema ⟨c5Impl, none⟩ rfl rfl⟩

/-- Claim C6 (amended): a leaf route whose declared method is not one of the
five supported verbs is silently skipped at registration: the switch of the
source has no default case, so no handler chain is registered and no error
is raised, at startup or later. -/
theorem C6_unsupported_method {H M C E : Type} (options : TsRestExpressOptions M) (r : AppRoute)
    (implementationOrOptions : AppRouteImplementationOrOptions H M)
    (cf : Option (ContextFunction C E)) (i : ImplTree H M)
    (hm : supportedMethod r.method = false) :
    registerExpressRoute implementationOrOptions r options = [] ∧
    (isLeafImpl i = true →
      createExpressEndpoints (.route r) ⟨i, cf⟩ options = ([], none)) := by
  constructor
  · simp [registerExpressRoute, hm]
  · intro hleaf
    cases i with
    | node _ => simp [isLeafImpl] at hleaf
    | handler h =>
      simp [createExpressEndpoints, recursivelyApplyExpressRouter, registerExpressRoute, hm]
    | options h mws =>
      simp [createExpressEndpoints, recursivelyApplyExpressRouter, registerExpressRoute, hm]

/-- Witness for claim C6: a HEAD route is skipped with no registration and
no error. -/
theorem C6_unsupported_method_witness :
    supportedMethod "HEAD" = false ∧
    registerExpressRoute (.impl 1) ⟨"HEAD", "/h", none, none, none, none, []⟩
      (⟨true, false, false, none⟩ : TsRestExpressOptions Nat) = ([] : List (Registration Nat Nat)) ∧
    createExpressEndpoints (.route ⟨"HEAD", "/h", none, none, none, none, []⟩)
      (⟨.handler 1, none⟩ : CompleteRouterObj Nat Nat Nat Nat)
      ⟨true, false, false, none⟩ = ([], none) :=
  ⟨rfl,
   (C6_unsupported_method ⟨true, false, false, none⟩ ⟨"HEAD", "/h", none, none, none, none, []⟩
     (.impl 1) (none : Option (ContextFunction Nat Nat)) (.handler 1) rfl).1,
   (C6_unsupported_method ⟨true, false, false, none⟩ ⟨"HEAD", "/h", none, none, none, none, []⟩
     (.impl 1) (none : Option (ContextFunction Nat Nat)) (.handler 1) rfl).2 rfl⟩

/-- Counterexample for claim C6 as stated: registering a concrete route
whose method is OPTIONS raises no error at all — the result carries no
error and no registration, so no configuration error is raised at startup,
contradicting the claim. -/
theorem C6_counterexample :
    createExpressEndpoints (.route ⟨"OPTIONS", "/x", none, none, none, none, []⟩)
      (⟨.handler 1, none⟩ : CompleteRouterObj Nat Nat Nat Nat)
      ⟨true, false, false, none⟩ = ([], none) := rfl

/-- Claim C7 (confirmed): path parameters and headers are validated in
tolerant mode; a request whose params carry the declared id string succeeds
at the params step no matter which extra undeclared keys are present, the
parsed params data is the full record (so its id field equals the declared
value from the request), and a headers record whose declared fields check
passes likewise, whatever extra keys it carries. -/
theorem C7_tolerant_params {M : Type} (options : TsRestExpressOptions M) (schema : AppRoute)
    (req : Request) (v : String)
    (hp : schema.pathParams = some ⟨[("id", JType.str)]⟩)
    (hid : lookupKey "id" req.params = some (.str v)) :
    checkZodSchema req.params schema.pathParams ⟨true⟩ = .ok req.params ∧
    (∀ hsh : Shape, schema.headers = some hsh → checkFields req.headers hsh.fields = [] →
      checkZodSchema req.headers schema.headers ⟨true⟩ = .ok req.headers) ∧
    (∀ hD qD bD, checkZodSchema req.headers schema.headers ⟨true⟩ = .ok hD →
      checkZodSchema (if options.jsonQuery then parseJsonQueryObject req.query else rawQueryRecord req.query)
        schema.query ⟨false⟩ = .ok qD →
      checkZodSchema req.body schema.body ⟨false⟩ = .ok bD →
      validateRequest req schema options = .success req.params hD qD bD) := by
  have h1 : checkZodSchema req.params schema.pathParams ⟨true⟩ = .ok req.params := by
    simp [hp, checkZodSchema, checkFields, hid, typechecks]
  refine ⟨h1, ?_, ?_⟩
  · intro hsh hhs hflds
    simp [checkZodSchema, hhs, hflds]
  · intro hD qD bD h2 h3 h4
    simp [validateRequest, h1, h2, h3, h4]

/-- Witness for claim C7: params carrying the declared id plus an extra key
and headers carrying the declared field plus an extra key pass validation,
and the parsed params keep the id value. -/
theorem C7_tolerant_params_witness :
    validateRequest
      ⟨[("id", JVal.str "123"), ("zzz", JVal.str "x")],
       [("h1", JVal.str "y"), ("hx", JVal.str "z")], [], []⟩
      ⟨"GET", "/u", some ⟨[("id", JType.str)]⟩, some ⟨[("h1", JType.str)]⟩, none, none, []⟩
      (⟨true, false, false, none⟩ : TsRestExpressOptions Nat)
      = .success [("id", JVal.str "123"), ("zzz", JVal.str "x")]
          [("h1", JVal.str "y"), ("hx", JVal.str "z")] [] [] :=
  (C7_tolerant_params ⟨true, false, false, none⟩
    ⟨"GET", "/u", some ⟨[("id", JType.str)]⟩, some ⟨[("h1", JType.str)]⟩, none, none, []⟩
    ⟨[("id", JVal.str "123"), ("zzz", JVal.str "x")],
     [("h1", JVal.str "y"), ("hx", JVal.str "z")], [], []⟩
    "123" rfl rfl).2.2
    [("h1", JVal.str "y"), ("hx", JVal.str "z")] [] [] rfl rfl rfl

/-- Claim C8 (confirmed): with the jsonQuery option enabled, every query
string value is JSON-decoded (falling back to the raw string) before
validation, so a query string carrying active=true delivers the boolean
true for active; the validated query data is the decoded record, since the
validator returns its input value on success. -/
theorem C8_json_query {M : Type} (options : TsRestExpressOptions M) (schema : AppRoute)
    (req : Request)
    (hj : options.jsonQuery = true)
    (ha : lookupKey "active" req.query = some "true") :
    lookupKey "active" (parseJsonQueryObject req.query) = some (JVal.bool true) ∧
    (∀ pD hD qD bD,
      checkZodSchema req.params schema.pathParams ⟨true⟩ = .ok pD →
      checkZodSchema req.headers schema.headers ⟨true⟩ = .ok hD →
      checkZodSchema (parseJsonQueryObject req.query) schema.query ⟨false⟩ = .ok qD →
      checkZodSchema req.body schema.body ⟨false⟩ = .ok bD →
      validateRequest req schema options = .success pD hD qD bD) ∧
    (∀ (val d : JRecord) (sh : Option Shape) (o : ZodOptions),
      checkZodSchema val sh o = .ok d → d = val) := by
  refine ⟨?_, ?_, ?_⟩
  · rw [lookupKey_parseJsonQueryObject, ha]
    rfl
  · intro pD hD qD bD h1 h2 h3 h4
    simp [validateRequest, hj, h1, h2, h3, h4]
  · intro val d sh o hok
    cases sh with
    | none =>
      simp only [checkZodSchema] at hok
      exact (Except.ok.inj hok).symm
    | some s =>
      simp only [checkZodSchema] at hok
      cases hcond : ((checkFields val s.fields).isEmpty
          && (if o.passThroughExtraKeys then ([] : List String) else extraKeys val s.fields).isEmpty) with
      | true =>
        simp only [hcond, if_pos] at hok
        exact (Except.ok.inj hok).symm
      | false =>
        simp only [hcond] at hok
        simp at hok

/-- Witness for claim C8: the query string active=true under jsonQuery is
decoded to the boolean true and validates against a boolean query shape,
delivering the boolean, not the string. -/
theorem C8_json_query_witness :
    lookupKey "active" (parseJsonQueryObject [("active", "true")]) = some (JVal.bool true) ∧
    validateRequest ⟨[], [], [("active", "true")], []⟩
      ⟨"GET", "/s", none, none, some ⟨[("active", JType.bool)]⟩, none, []⟩
      (⟨true, true, false, none⟩ : TsRestExpressOptions Nat)
      = .success [] [] [("active", JVal.bool true)] [] :=
  ⟨(C8_json_query (⟨true, true, false, none⟩ : TsRestExpressOptions Nat)
      ⟨"GET", "/s", none, none, some ⟨[("active", JType.bool)]⟩, none, []⟩
      ⟨[], [], [("active", "true")], []⟩ rfl rfl).1,
   (C8_json_query (⟨true, true, false, none⟩ : TsRestExpressOptions Nat)
      ⟨"GET", "/s", none, none, some ⟨[("active", JType.bool)]⟩, none, []⟩
      ⟨[], [], [("active", "true")], []⟩ rfl rfl).2.1
      [] [] [("active", JVal.bool true)] [] rfl rfl rfl rfl⟩

/-- Claim C9 (confirmed): when validation succeeded and the implementation
rejects or throws, the main request handler forwards the error value
unchanged to the next-with-error path of the host, sending no response of
its own. -/
theorem C9_handler_error_forwarding {M E : Type} (options : TsRestExpressOptions M)
    (schema : AppRoute) (req : Request) (handler : HandlerFn E) (p h q b : JRecord) (e : E)
    (hv : validateRequest req schema options = .success p h q b)
    (hh : handler ⟨p, b, q, h, req⟩ = .error e) :
    mainReqHandler schema options handler req = .forwardedError (.handlerError e) := by
  simp [mainReqHandler, hv, hh]

/-- Witness for claim C9: an implementation rejecting with the value 42 on a
trivially validated request has exactly that value forwarded. -/
theorem C9_handler_error_forwarding_witness :
    mainReqHandler ⟨"GET", "/e", none, none, none, none, []⟩
      (⟨true, false, false, none⟩ : TsRestExpressOptions Nat)
      ((fun _ => .error 42) : HandlerFn Nat)
      ⟨[], [], [], []⟩
      = .forwardedError (.handlerError 42) :=
  C9_handler_error_forwarding ⟨true, false, false, none⟩
    ⟨"GET", "/e", none, none, none, none, []⟩ ⟨[], [], [], []⟩
    (fun _ => .error 42) [] [] [] [] 42 rfl rfl

/-- Claim C10 (confirmed): when the declared context function throws or
rejects, the context middleware never calls next and never forwards the
error: the request gets no response from the engine, validation never runs
and the host error pipeline is not invoked — the failure lives on only as
the unhandled rejection of the fire-and-forget closure, whatever the route
implementation would have done. -/
theorem C10_context_rejection {M C E : Type} (options : TsRestExpressOptions M)
    (schema : AppRoute) (req : Request) (f : ContextFunction C E) (e : E)
    (he : f req schema = .error e) :
    ∀ handler : HandlerFn E,
      runRouteRequest (some f) schema options handler req = (.noResponse e, 1) := by
  intro handler
  simp [runRouteRequest, contextMiddleware, he]

/-- Witness for claim C10: a context function rejecting with 7 stalls the
concrete request with an unhandled rejection; no response, no validation and
no forwarded error appear. -/
theorem C10_context_rejection_witness :
    runRouteRequest (some ((fun _ _ => .error 7) : ContextFunction Nat Nat))
      ⟨"GET", "/c7", none, none, none, some ⟨[("name", JType.str)]⟩, []⟩
      (⟨true, false, false, none⟩ : TsRestExpressOptions Nat)
      ((fun _ => .ok ⟨JVal.num 200, []⟩) : HandlerFn Nat)
      ⟨[], [], [], []⟩
      = (.noResponse 7, 1) :=
  C10_context_rejection ⟨true, false, false, none⟩
    ⟨"GET", "/c7", none, none, none, some ⟨[("name", JType.str)]⟩, []⟩
    ⟨[], [], [], []⟩ (fun _ _ => .error 7) 7 rfl
    (fun _ => .ok ⟨JVal.num 200, []⟩)

end TsRestExpress
